import Mathlib

/-!
The task service `task_go`: a CRUD HTTP service over a document store.

A shallow embedding of `models/task.go`, `repository/task_repository.go` and
`handlers/task_handler.go`.

The document store and its driver are external collaborators.  They are
modelled here as follows.

* The `tasks` collection is a list of documents in store-native order,
  together with a record of the store operations issued so far.
* `InsertOne` appends, and fails with a duplicate-key error when the `_id`
  is already present.  A document whose `_id` is the zero identifier is
  encoded without `_id` (`bson:"_id,omitempty"`) and receives the identifier
  generated by the driver, which is an input of the call.
* `FindOne`, `UpdateOne` and `DeleteOne` act on the first matching document;
  `Find`, `CountDocuments` and `DeleteMany` on every matching document.
* `$set` with an empty field set changes nothing (MongoDB 5.0 and later).
* Connectivity failures and timeouts are outside the model: a store operation
  fails only for the reasons above.
* `time.Now()` is an input of the call that reads it.
* A Go `string` is a byte sequence; an id string is a `String` read through
  its UTF-8 bytes.
-/

namespace TaskGo

/-! ## Identifiers (`primitive.ObjectID`, `encoding/hex`) -/

/-- The store identifier `primitive.ObjectID`, a `[12]byte`. -/
abbrev ObjectID := { l : List (Fin 256) // l.length = 12 }

/-- The zero identifier `primitive.NilObjectID`. -/
def NilObjectID : ObjectID := ⟨List.replicate 12 0, rfl⟩

/-- The errors a repository call can return. -/
inductive Err where
  /-- The error `primitive.ErrInvalidHex`: the id string is not 24 bytes long. -/
  | invalidHex
  /-- The error `hex.InvalidByteError`: a byte of the id string is no hex digit. -/
  | invalidByte
  /-- The error `hex.ErrLength`: an odd number of hex digits. -/
  | oddLength
  /-- The error `mongo.ErrNoDocuments`: `FindOne` matched nothing. -/
  | noDocuments
  /-- A write error of the store: the `_id` is already present. -/
  | duplicateKey
  /-- The request body could not be decoded, or failed validation. -/
  | badRequest
deriving DecidableEq, Repr

deriving instance DecidableEq for Except

/-- The table `hextable = "0123456789abcdef"` of `encoding/hex`. -/
def hextable : List Char := "0123456789abcdef".data

/-- The bytes of a Go string. -/
def goBytes (s : String) : List UInt8 := s.data.flatMap String.utf8EncodeChar

/-- The value of one hex digit (`reverseHexTable`), upper or lower case. -/
def fromHexChar (b : UInt8) : Option Nat :=
  let n := b.toNat
  if 48 ≤ n ∧ n ≤ 57 then some (n - 48)
  else if 97 ≤ n ∧ n ≤ 102 then some (n - 97 + 10)
  else if 65 ≤ n ∧ n ≤ 70 then some (n - 65 + 10)
  else none

/-- The function `hex.Decode`: two hex digits give one byte. -/
def hexDecode : List UInt8 → Except Err (List (Fin 256))
  | [] => .ok []
  | [p] =>
    match fromHexChar p with
    | none => .error .invalidByte
    | some _ => .error .oddLength
  | p :: q :: rest =>
    match fromHexChar p with
    | none => .error .invalidByte
    | some a =>
      match fromHexChar q with
      | none => .error .invalidByte
      | some b =>
        match hexDecode rest with
        | .error e => .error e
        | .ok bs => .ok (Fin.ofNat (a * 16 + b) :: bs)

/-- The function `primitive.ObjectIDFromHex`. -/
def ObjectIDFromHex (s : String) : Except Err ObjectID :=
  if (goBytes s).length ≠ 24 then .error .invalidHex
  else
    match hexDecode (goBytes s) with
    | .error e => .error e
    | .ok bs => if h : bs.length = 12 then .ok ⟨bs, h⟩ else .error .invalidHex

/-- The method `ObjectID.Hex`: 24 lower-case hex digits. -/
def ObjectID.Hex (id : ObjectID) : String :=
  ⟨id.val.flatMap fun b => [hextable.getD (b.val / 16) '0', hextable.getD (b.val % 16) '0']⟩


/-- An id string of 24 bytes, each a hex digit of either case. -/
def IsHex24 (s : String) : Prop :=
  (goBytes s).length = 24 ∧ ∀ b ∈ goBytes s, (fromHexChar b).isSome = true

instance (s : String) : Decidable (IsHex24 s) := by
  unfold IsHex24; infer_instance

/-! ## `models/task.go` -/

/-- A `time.Time`, as nanoseconds; the zero value is `0`. -/
abbrev Time := Nat

/-- The struct `models.Task`, which is also the stored document. -/
structure Task where
  ID : ObjectID
  Text : String
  Completed : Bool
  CreatedAt : Time
deriving DecidableEq

/-- The struct `models.CreateTaskRequest`. -/
structure CreateTaskRequest where
  Text : String
deriving DecidableEq

/-- The struct `models.UpdateTaskRequest`; a nil pointer is `none`. -/
structure UpdateTaskRequest where
  Text : Option String
  Completed : Option Bool
deriving DecidableEq

/-- The struct `models.TaskResponse`. -/
structure TaskResponse where
  ID : String
  Text : String
  Completed : Bool
  CreatedAt : Time
deriving DecidableEq

/-- The struct `models.TaskStats`. -/
structure TaskStats where
  Total : Int
  Completed : Int
  Pending : Int
deriving DecidableEq

/-- The type `models.FilterType`, a string. -/
abbrev FilterType := String

/-- The constant `models.FilterAll`. -/
def FilterAll : FilterType := "all"
/-- The constant `models.FilterCompleted`. -/
def FilterCompleted : FilterType := "completed"
/-- The constant `models.FilterPending`. -/
def FilterPending : FilterType := "pending"

/-! ## The document store -/

/-- The query documents the repository builds. -/
inductive Query where
  /-- The query `bson.M{}`. -/
  | all
  /-- The query `bson.M{"completed": b}`. -/
  | completed (b : Bool)
  /-- The query `bson.M{"_id": oid}`. -/
  | byID (oid : ObjectID)
deriving DecidableEq

/-- Whether a document satisfies a query. -/
def Query.sat : Query → Task → Bool
  | .all, _ => true
  | .completed b, t => t.Completed == b
  | .byID oid, t => t.ID == oid

/-- The field set `updateFields` of a `$set` update; a key not in the map is `none`. -/
structure SetFields where
  text : Option String
  completed : Option Bool
deriving DecidableEq

/-- The effect of `$set` on one document. -/
def SetFields.apply (u : SetFields) (t : Task) : Task :=
  let t1 := match u.text with
    | some x => { t with Text := x }
    | none => t
  match u.completed with
  | some b => { t1 with Completed := b }
  | none => t1

/-- The store operations the repository issues. -/
inductive StoreCall where
  | insertOne (doc : Task)
  | find (q : Query)
  | findOne (q : Query)
  | updateOne (q : Query) (u : SetFields)
  | deleteOne (q : Query)
  | deleteMany (q : Query)
  | countDocuments (q : Query)
deriving DecidableEq

/-- The `tasks` collection: its documents in store-native order, and the
store operations issued against it so far, oldest first. -/
structure Collection where
  docs : List Task
  calls : List StoreCall
deriving DecidableEq

/-- The empty collection, with no operation issued. -/
def Collection.empty : Collection := ⟨[], []⟩

/-- A BSON datetime has millisecond precision. -/
def bsonDateTime (t : Time) : Time := t / 1000000 * 1000000

/-- Replace the first document that satisfies the query. -/
def updateFirst (q : Query) (u : SetFields) : List Task → List Task
  | [] => []
  | t :: ts => if q.sat t then u.apply t :: ts else t :: updateFirst q u ts

/-- Remove the first document that satisfies the query. -/
def deleteFirst (q : Query) : List Task → List Task
  | [] => []
  | t :: ts => if q.sat t then ts else t :: deleteFirst q ts

/-- The operation `InsertOne`; `gen` is the identifier the driver generates
for a document encoded without `_id`. -/
def Collection.InsertOne (c : Collection) (gen : ObjectID) (t : Task) :
    Except Err ObjectID × Collection :=
  let oid := if t.ID = NilObjectID then gen else t.ID
  let doc : Task := ⟨oid, t.Text, t.Completed, bsonDateTime t.CreatedAt⟩
  if c.docs.any (fun d => d.ID == oid) then
    (.error .duplicateKey, ⟨c.docs, c.calls ++ [.insertOne t]⟩)
  else
    (.ok oid, ⟨c.docs ++ [doc], c.calls ++ [.insertOne t]⟩)

/-- The operation `Find` followed by `cursor.All`. -/
def Collection.Find (c : Collection) (q : Query) : Except Err (List Task) × Collection :=
  (.ok (c.docs.filter q.sat), ⟨c.docs, c.calls ++ [.find q]⟩)

/-- The operation `FindOne` followed by `Decode`. -/
def Collection.FindOne (c : Collection) (q : Query) : Except Err Task × Collection :=
  match c.docs.find? q.sat with
  | some t => (.ok t, ⟨c.docs, c.calls ++ [.findOne q]⟩)
  | none => (.error .noDocuments, ⟨c.docs, c.calls ++ [.findOne q]⟩)

/-- The operation `UpdateOne` with a `$set` update. -/
def Collection.UpdateOne (c : Collection) (q : Query) (u : SetFields) :
    Except Err Unit × Collection :=
  (.ok (), ⟨updateFirst q u c.docs, c.calls ++ [.updateOne q u]⟩)

/-- The operation `DeleteOne`. -/
def Collection.DeleteOne (c : Collection) (q : Query) : Except Err Unit × Collection :=
  (.ok (), ⟨deleteFirst q c.docs, c.calls ++ [.deleteOne q]⟩)

/-- The operation `DeleteMany`. -/
def Collection.DeleteMany (c : Collection) (q : Query) : Except Err Unit × Collection :=
  (.ok (), ⟨c.docs.filter (fun t => !q.sat t), c.calls ++ [.deleteMany q]⟩)

/-- The operation `CountDocuments`. -/
def Collection.CountDocuments (c : Collection) (q : Query) : Except Err Int × Collection :=
  (.ok (c.docs.countP q.sat : Nat), ⟨c.docs, c.calls ++ [.countDocuments q]⟩)

/-! ## `repository/task_repository.go` -/

namespace TaskRepository

/-- The conversion to the response format, written out in each repository function. -/
def toResponse (task : Task) : TaskResponse :=
  ⟨task.ID.Hex, task.Text, task.Completed, task.CreatedAt⟩

/-- The method `TaskRepository.CreateTask`; `now` is what `time.Now()` returns. -/
def CreateTask (r : Collection) (now : Time) (gen : ObjectID) (task : Task) :
    Except Err TaskResponse × Collection :=
  let task : Task := ⟨task.ID, task.Text, task.Completed, now⟩
  match r.InsertOne gen task with
  | (.error err, r1) => (.error err, r1)
  | (.ok insertedID, r1) =>
    (.ok ⟨insertedID.Hex, task.Text, task.Completed, task.CreatedAt⟩, r1)

/-- The method `TaskRepository.GetAllTasks`. -/
def GetAllTasks (r : Collection) (filter : FilterType) :
    Except Err (List TaskResponse) × Collection :=
  let filterQuery : Query :=
    if filter = FilterCompleted then .completed true
    else if filter = FilterPending then .completed false
    else .all
  match r.Find filterQuery with
  | (.error err, r1) => (.error err, r1)
  | (.ok tasks, r1) => (.ok (tasks.map toResponse), r1)

/-- The method `TaskRepository.GetTaskByID`. -/
def GetTaskByID (r : Collection) (id : String) : Except Err TaskResponse × Collection :=
  match ObjectIDFromHex id with
  | .error err => (.error err, r)
  | .ok objectID =>
    match r.FindOne (.byID objectID) with
    | (.error err, r1) => (.error err, r1)
    | (.ok task, r1) => (.ok (toResponse task), r1)

/-- The method `TaskRepository.UpdateTask`. -/
def UpdateTask (r : Collection) (id : String) (updateData : UpdateTaskRequest) :
    Except Err TaskResponse × Collection :=
  match ObjectIDFromHex id with
  | .error err => (.error err, r)
  | .ok objectID =>
    let updateFields : SetFields := ⟨none, none⟩
    let updateFields : SetFields :=
      match updateData.Text with
      | some x => ⟨some x, updateFields.completed⟩
      | none => updateFields
    let updateFields : SetFields :=
      match updateData.Completed with
      | some b => ⟨updateFields.text, some b⟩
      | none => updateFields
    match r.UpdateOne (.byID objectID) updateFields with
    | (.error err, r1) => (.error err, r1)
    | (.ok _, r1) => GetTaskByID r1 id

/-- The method `TaskRepository.DeleteTask`; `none` is a nil error. -/
def DeleteTask (r : Collection) (id : String) : Option Err × Collection :=
  match ObjectIDFromHex id with
  | .error err => (some err, r)
  | .ok objectID =>
    match r.DeleteOne (.byID objectID) with
    | (.error err, r1) => (some err, r1)
    | (.ok _, r1) => (none, r1)

/-- The method `TaskRepository.DeleteAllTasks`. -/
def DeleteAllTasks (r : Collection) : Option Err × Collection :=
  match r.DeleteMany .all with
  | (.error err, r1) => (some err, r1)
  | (.ok _, r1) => (none, r1)

/-- The method `TaskRepository.GetTaskStats`. -/
def GetTaskStats (r : Collection) : Except Err TaskStats × Collection :=
  match r.CountDocuments .all with
  | (.error err, r1) => (.error err, r1)
  | (.ok total, r1) =>
    match r1.CountDocuments (.completed true) with
    | (.error err, r2) => (.error err, r2)
    | (.ok completed, r2) => (.ok ⟨total, completed, total - completed⟩, r2)

end TaskRepository

/-! ## `handlers/task_handler.go` -/

/-- The JSON bodies the handlers write. -/
inductive Body where
  /-- The object `gin.H{"error": msg}`. -/
  | error (msg : String)
  /-- The object `gin.H{"message": msg}`. -/
  | message (msg : String)
  | task (t : TaskResponse)
  | tasks (ts : List TaskResponse)
  | stats (s : TaskStats)
deriving DecidableEq

/-- What `c.JSON(status, body)` writes. -/
structure Response where
  status : Nat
  body : Body
deriving DecidableEq

def StatusOK : Nat := 200
def StatusCreated : Nat := 201
def StatusBadRequest : Nat := 400
def StatusNotFound : Nat := 404
def StatusInternalServerError : Nat := 500

/-- A JSON object sent to `POST /tasks`: its `text` member, when it has one. -/
structure CreateBody where
  text : Option String
deriving DecidableEq

/-- A JSON object sent to `PUT /tasks/:id`: the members it has. -/
structure UpdateBody where
  text : Option String
  completed : Option Bool
deriving DecidableEq

/-- The call `c.ShouldBindJSON(&req)` for a `CreateTaskRequest`: the body is
decoded (`none` is a body that does not decode), a missing member leaves the
zero value, and `binding:"required"` rejects the zero value. -/
def bindCreateTaskRequest : Option CreateBody → Except Err CreateTaskRequest
  | none => .error .badRequest
  | some b =>
    let req : CreateTaskRequest := ⟨b.text.getD ""⟩
    if req.Text = "" then .error .badRequest else .ok req

/-- The call `c.ShouldBindJSON(&req)` for an `UpdateTaskRequest`, which has
no binding tag: only a body that does not decode is rejected. -/
def bindUpdateTaskRequest : Option UpdateBody → Except Err UpdateTaskRequest
  | none => .error .badRequest
  | some b => .ok ⟨b.text, b.completed⟩

namespace TaskHandler

/-- The handler `TaskHandler.CreateTask`. -/
def CreateTask (h : Collection) (now : Time) (gen : ObjectID) (body : Option CreateBody) :
    Response × Collection :=
  match bindCreateTaskRequest body with
  | .error _ => (⟨StatusBadRequest, .error "Invalid request body"⟩, h)
  | .ok req =>
    let task : Task := ⟨NilObjectID, req.Text, false, 0⟩
    match TaskRepository.CreateTask h now gen task with
    | (.error _, h1) => (⟨StatusInternalServerError, .error "Failed to create task"⟩, h1)
    | (.ok createdTask, h1) => (⟨StatusCreated, .task createdTask⟩, h1)

/-- The handler `TaskHandler.GetTasks`; `query` is the `filter` query parameter. -/
def GetTasks (h : Collection) (query : Option String) : Response × Collection :=
  let filter := query.getD "all"
  let filterType : FilterType :=
    if filter = "completed" then FilterCompleted
    else if filter = "pending" then FilterPending
    else FilterAll
  match TaskRepository.GetAllTasks h filterType with
  | (.error _, h1) => (⟨StatusInternalServerError, .error "Failed to fetch tasks"⟩, h1)
  | (.ok tasks, h1) => (⟨StatusOK, .tasks tasks⟩, h1)

/-- The handler `TaskHandler.GetTask`. -/
def GetTask (h : Collection) (id : String) : Response × Collection :=
  match TaskRepository.GetTaskByID h id with
  | (.error _, h1) => (⟨StatusNotFound, .error "Task not found"⟩, h1)
  | (.ok task, h1) => (⟨StatusOK, .task task⟩, h1)

/-- The handler `TaskHandler.UpdateTask`. -/
def UpdateTask (h : Collection) (id : String) (body : Option UpdateBody) :
    Response × Collection :=
  match bindUpdateTaskRequest body with
  | .error _ => (⟨StatusBadRequest, .error "Invalid request body"⟩, h)
  | .ok req =>
    match TaskRepository.UpdateTask h id req with
    | (.error _, h1) => (⟨StatusInternalServerError, .error "Failed to update task"⟩, h1)
    | (.ok updatedTask, h1) => (⟨StatusOK, .task updatedTask⟩, h1)

/-- The handler `TaskHandler.DeleteTask`. -/
def DeleteTask (h : Collection) (id : String) : Response × Collection :=
  match TaskRepository.DeleteTask h id with
  | (some _, h1) => (⟨StatusInternalServerError, .error "Failed to delete task"⟩, h1)
  | (none, h1) => (⟨StatusOK, .message "Task deleted successfully"⟩, h1)

/-- The handler `TaskHandler.DeleteAllTasks`. -/
def DeleteAllTasks (h : Collection) : Response × Collection :=
  match TaskRepository.DeleteAllTasks h with
  | (some _, h1) => (⟨StatusInternalServerError, .error "Failed to delete all tasks"⟩, h1)
  | (none, h1) => (⟨StatusOK, .message "All tasks deleted successfully"⟩, h1)

/-- The handler `TaskHandler.GetStats`. -/
def GetStats (h : Collection) : Response × Collection :=
  match TaskRepository.GetTaskStats h with
  | (.error _, h1) => (⟨StatusInternalServerError, .error "Failed to fetch stats"⟩, h1)
  | (.ok stats, h1) => (⟨StatusOK, .stats stats⟩, h1)

/-- The handler `TaskHandler.ToggleTask`. -/
def ToggleTask (h : Collection) (id : String) : Response × Collection :=
  match TaskRepository.GetTaskByID h id with
  | (.error _, h1) => (⟨StatusNotFound, .error "Task not found"⟩, h1)
  | (.ok currentTask, h1) =>
    let completed := !currentTask.Completed
    let updateReq : UpdateTaskRequest := ⟨none, some completed⟩
    match TaskRepository.UpdateTask h1 id updateReq with
    | (.error _, h2) => (⟨StatusInternalServerError, .error "Failed to toggle task"⟩, h2)
    | (.ok updatedTask, h2) => (⟨StatusOK, .task updatedTask⟩, h2)

end TaskHandler

/-! ## The route table of `main.go` -/

/-- A request to one of the task routes, with what the environment supplies
while it is handled. -/
inductive Request where
  /-- The route `POST /tasks`. -/
  | createTask (now : Time) (gen : ObjectID) (body : Option CreateBody)
  /-- The route `GET /tasks`. -/
  | getTasks (query : Option String)
  /-- The route `GET /tasks/stats`. -/
  | getStats
  /-- The route `DELETE /tasks`. -/
  | deleteAllTasks
  /-- The route `GET /tasks/:id`. -/
  | getTask (id : String)
  /-- The route `PUT /tasks/:id`. -/
  | updateTask (id : String) (body : Option UpdateBody)
  /-- The route `PATCH /tasks/:id/toggle`. -/
  | toggleTask (id : String)
  /-- The route `DELETE /tasks/:id`. -/
  | deleteTask (id : String)

/-- One request, handled to completion. -/
def serve (h : Collection) : Request → Response × Collection
  | .createTask now gen body => TaskHandler.CreateTask h now gen body
  | .getTasks query => TaskHandler.GetTasks h query
  | .getStats => TaskHandler.GetStats h
  | .deleteAllTasks => TaskHandler.DeleteAllTasks h
  | .getTask id => TaskHandler.GetTask h id
  | .updateTask id body => TaskHandler.UpdateTask h id body
  | .toggleTask id => TaskHandler.ToggleTask h id
  | .deleteTask id => TaskHandler.DeleteTask h id

/-- A sequence of requests, handled one after the other. -/
def serveAll (h : Collection) : List Request → Collection
  | [] => h
  | req :: reqs => serveAll (serve h req).2 reqs

/-- Every document of the collection has its own `_id`, as the store's unique
index on `_id` guarantees. -/
def Collection.UniqueIDs (c : Collection) : Prop := (c.docs.map Task.ID).Nodup

instance (c : Collection) : Decidable c.UniqueIDs := by
  unfold Collection.UniqueIDs; infer_instance

/-- Every stored task has a non-empty text. -/
def Collection.TextsNonEmpty (c : Collection) : Prop := ∀ d ∈ c.docs, d.Text ≠ ""

/-- A `PUT /tasks/:id` request whose body carries the empty text. -/
def Request.setsEmptyText : Request → Prop
  | .updateTask _ (some body) => body.text = some ""
  | _ => False

/-! ## Concrete inputs -/

/-- The identifier `000000000000000000000001`. -/
def oidA : ObjectID := ⟨[0, 0, 0, 0, 0, 0, 0, 0, 0, 0, 0, 1], rfl⟩

/-- The identifier `000000000000000000000002`. -/
def oidB : ObjectID := ⟨[0, 0, 0, 0, 0, 0, 0, 0, 0, 0, 0, 2], rfl⟩

/-- A pending task. -/
def taskA : Task := ⟨oidA, "write", false, 5000000⟩

/-- A completed task. -/
def taskB : Task := ⟨oidB, "read", true, 7000000⟩

/-- A collection holding one pending and one completed task. -/
def twoTasks : Collection := ⟨[taskA, taskB], []⟩

/-! ## Identifier strings -/

theorem hexDecode_ok_inv (bs : List UInt8) :
    ∀ out, hexDecode bs = .ok out →
      (∀ b ∈ bs, (fromHexChar b).isSome = true) ∧ bs.length = 2 * out.length := by
  induction bs using hexDecode.induct with
  | case1 => intro out h; simp [hexDecode] at h; subst h; simp
  | case2 p hp => intro out h; simp [hexDecode, hp] at h
  | case3 p a hp => intro out h; simp [hexDecode, hp] at h
  | case4 p q rest hp => intro out h; simp [hexDecode, hp] at h
  | case5 p q rest a ha hq => intro out h; simp [hexDecode, ha, hq] at h
  | case6 p q rest a ha b hb e he _ => intro out h; simp [hexDecode, ha, hb, he] at h
  | case7 p q rest a ha b hb bs hrest ih =>
    intro out h
    simp only [hexDecode, ha, hb, hrest, Except.ok.injEq] at h
    subst h
    obtain ⟨h1, h2⟩ := ih bs hrest
    refine ⟨?_, by simp [h2]; omega⟩
    intro x hx
    simp only [List.mem_cons] at hx
    rcases hx with rfl | rfl | hx
    · simp [ha]
    · simp [hb]
    · exact h1 x hx

theorem hexDecode_ok_of_hex (n : Nat) :
    ∀ bs : List UInt8, bs.length = 2 * n → (∀ b ∈ bs, (fromHexChar b).isSome = true) →
      ∃ out, hexDecode bs = .ok out := by
  induction n with
  | zero =>
    intro bs hlen _
    have : bs = [] := List.length_eq_zero.mp (by omega)
    subst this
    exact ⟨[], rfl⟩
  | succ n ih =>
    intro bs hlen hall
    match bs, hlen, hall with
    | p :: q :: rest, hlen, hall =>
      obtain ⟨a, ha⟩ := Option.isSome_iff_exists.mp (hall p (by simp))
      obtain ⟨b, hb⟩ := Option.isSome_iff_exists.mp (hall q (by simp))
      obtain ⟨out, hout⟩ := ih rest (by simp at hlen; omega)
        (fun x hx => hall x (by simp [hx]))
      exact ⟨Fin.ofNat (a * 16 + b) :: out, by simp [hexDecode, ha, hb, hout]⟩
    | [], hlen, _ => simp at hlen
    | [_], hlen, _ => simp at hlen; omega

/-- An id string parses exactly when it is 24 hex digits. -/
theorem ObjectIDFromHex_ok_iff (s : String) :
    (∃ oid, ObjectIDFromHex s = .ok oid) ↔ IsHex24 s := by
  constructor
  · rintro ⟨oid, h⟩
    unfold ObjectIDFromHex at h
    by_cases hlen : (goBytes s).length = 24
    · refine ⟨hlen, ?_⟩
      cases hd : hexDecode (goBytes s) with
      | error e => simp [hlen, hd] at h
      | ok bs => exact (hexDecode_ok_inv _ bs hd).1
    · simp [hlen] at h
  · rintro ⟨hlen, hall⟩
    obtain ⟨out, hout⟩ := hexDecode_ok_of_hex 12 (goBytes s) (by omega) hall
    have hl : out.length = 12 := by
      have := (hexDecode_ok_inv _ out hout).2
      omega
    exact ⟨⟨out, hl⟩, by simp [ObjectIDFromHex, hlen, hout, hl]⟩

/-- An id string that is not 24 hex digits fails to parse. -/
theorem ObjectIDFromHex_error_of_not_hex (s : String) (h : ¬ IsHex24 s) :
    ∃ e, ObjectIDFromHex s = .error e := by
  cases hp : ObjectIDFromHex s with
  | error e => exact ⟨e, rfl⟩
  | ok oid => exact absurd ((ObjectIDFromHex_ok_iff s).mp ⟨oid, hp⟩) h

theorem hextable_digit :
    ∀ n, n < 16 → (String.utf8EncodeChar (hextable.getD n '0')).map fromHexChar = [some n] := by
  decide

theorem encode_byte (b : Fin 256) :
    ∃ x y, ([hextable.getD (b.val / 16) '0', hextable.getD (b.val % 16) '0'].flatMap
        String.utf8EncodeChar) = [x, y] ∧
      fromHexChar x = some (b.val / 16) ∧ fromHexChar y = some (b.val % 16) := by
  have h1 := hextable_digit (b.val / 16) (by omega)
  have h2 := hextable_digit (b.val % 16) (by omega)
  match hx : String.utf8EncodeChar (hextable.getD (b.val / 16) '0'),
    hy : String.utf8EncodeChar (hextable.getD (b.val % 16) '0') with
  | [x], [y] =>
    rw [hx] at h1; rw [hy] at h2
    simp only [List.map_cons, List.map_nil, List.cons.injEq, and_true] at h1 h2
    exact ⟨x, y, by rw [List.flatMap_cons, List.flatMap_cons, List.flatMap_nil, hx, hy]; rfl,
      h1, h2⟩
  | [], _ => rw [hx] at h1; simp at h1
  | _ :: _ :: _, _ => rw [hx] at h1; simp at h1
  | [_], [] => rw [hy] at h2; simp at h2
  | [_], _ :: _ :: _ => rw [hy] at h2; simp at h2

theorem hexDecode_encode (bs : List (Fin 256)) :
    hexDecode ((bs.flatMap fun b =>
      [hextable.getD (b.val / 16) '0', hextable.getD (b.val % 16) '0']).flatMap
        String.utf8EncodeChar) = .ok bs := by
  induction bs with
  | nil => rfl
  | cons b bs ih =>
    obtain ⟨x, y, hxy, hx, hy⟩ := encode_byte b
    rw [List.flatMap_cons, List.flatMap_append, hxy]
    have hb : Fin.ofNat (b.val / 16 * 16 + b.val % 16) = b := by
      apply Fin.ext
      simp only [Fin.ofNat]
      have := b.isLt
      omega
    simp only [List.cons_append, List.nil_append, hexDecode, hx, hy, List.append_eq, ih, hb]

/-- Parsing the hex form of an identifier gives the identifier back. -/
theorem ObjectIDFromHex_Hex (oid : ObjectID) : ObjectIDFromHex oid.Hex = .ok oid := by
  obtain ⟨bs, hlen⟩ := oid
  have hdec := hexDecode_encode bs
  have hl := (hexDecode_ok_inv _ bs hdec).2
  have hl24 : ((bs.flatMap fun b =>
      [hextable.getD (b.val / 16) '0', hextable.getD (b.val % 16) '0']).flatMap
        String.utf8EncodeChar).length = 24 := by rw [hl, hlen]
  simp only [ObjectIDFromHex, goBytes, ObjectID.Hex, hdec, hl24, hlen, ne_eq, not_true_eq_false,
    if_false, dite_true]

/-! ## Lists of documents -/

theorem apply_ID (u : SetFields) (t : Task) : (u.apply t).ID = t.ID := by
  unfold SetFields.apply
  cases u.text <;> cases u.completed <;> rfl

theorem sat_byID (oid : ObjectID) (t : Task) : (Query.byID oid).sat t = true ↔ t.ID = oid := by
  simp [Query.sat]

theorem sat_all : Query.all.sat = fun _ => true := by
  funext t; rfl

theorem sat_completed_true : (Query.completed true).sat = fun t => t.Completed := by
  funext t; simp [Query.sat]

theorem sat_completed_false : (Query.completed false).sat = fun t => !t.Completed := by
  funext t; cases hc : t.Completed <;> simp [Query.sat, hc]

theorem find_none_of_absent (oid : ObjectID) (docs : List Task)
    (hab : ∀ d ∈ docs, d.ID ≠ oid) : docs.find? (Query.byID oid).sat = none := by
  rw [List.find?_eq_none]
  intro d hd
  simpa [Query.sat] using hab d hd

theorem updateFirst_of_absent (oid : ObjectID) (u : SetFields) (docs : List Task)
    (hab : ∀ d ∈ docs, d.ID ≠ oid) : updateFirst (.byID oid) u docs = docs := by
  induction docs with
  | nil => rfl
  | cons d ds ih =>
    have hd : (Query.byID oid).sat d = false := by
      simpa [Query.sat] using hab d (List.mem_cons_self d ds)
    simp only [updateFirst, hd]
    rw [ih fun x hx => hab x (List.mem_cons_of_mem d hx)]
    simp

theorem deleteFirst_of_absent (oid : ObjectID) (docs : List Task)
    (hab : ∀ d ∈ docs, d.ID ≠ oid) : deleteFirst (.byID oid) docs = docs := by
  induction docs with
  | nil => rfl
  | cons d ds ih =>
    have hd : (Query.byID oid).sat d = false := by
      simpa [Query.sat] using hab d (List.mem_cons_self d ds)
    simp only [deleteFirst, hd]
    rw [ih fun x hx => hab x (List.mem_cons_of_mem d hx)]
    simp

theorem find_split (pre post : List Task) (t : Task)
    (hpre : ∀ d ∈ pre, d.ID ≠ t.ID) :
    (pre ++ t :: post).find? (Query.byID t.ID).sat = some t := by
  induction pre with
  | nil => simp [Query.sat]
  | cons d ds ih =>
    have hd : (Query.byID t.ID).sat d = false := by
      simpa [Query.sat] using hpre d (List.mem_cons_self d ds)
    simp only [List.cons_append, List.find?_cons, hd]
    exact ih fun x hx => hpre x (List.mem_cons_of_mem d hx)

theorem updateFirst_split (pre post : List Task) (t : Task) (u : SetFields)
    (hpre : ∀ d ∈ pre, d.ID ≠ t.ID) :
    updateFirst (.byID t.ID) u (pre ++ t :: post) = pre ++ u.apply t :: post := by
  induction pre with
  | nil => simp [updateFirst, Query.sat]
  | cons d ds ih =>
    have hd : (Query.byID t.ID).sat d = false := by
      simpa [Query.sat] using hpre d (List.mem_cons_self d ds)
    have ih1 := ih fun x hx => hpre x (List.mem_cons_of_mem d hx)
    simp [updateFirst, hd, ih1]

theorem deleteFirst_split (pre post : List Task) (t : Task)
    (hpre : ∀ d ∈ pre, d.ID ≠ t.ID) :
    deleteFirst (.byID t.ID) (pre ++ t :: post) = pre ++ post := by
  induction pre with
  | nil => simp [deleteFirst, Query.sat]
  | cons d ds ih =>
    have hd : (Query.byID t.ID).sat d = false := by
      simpa [Query.sat] using hpre d (List.mem_cons_self d ds)
    have ih1 := ih fun x hx => hpre x (List.mem_cons_of_mem d hx)
    simp [deleteFirst, hd, ih1]

/-- A stored task splits the collection around itself, and under unique
identifiers no other document carries its identifier. -/
theorem split_of_mem (docs : List Task) (t : Task)
    (hu : (docs.map Task.ID).Nodup) (ht : t ∈ docs) :
    ∃ pre post, docs = pre ++ t :: post ∧
      (∀ d ∈ pre, d.ID ≠ t.ID) ∧ (∀ d ∈ post, d.ID ≠ t.ID) := by
  obtain ⟨pre, post, rfl⟩ := List.append_of_mem ht
  refine ⟨pre, post, rfl, ?_, ?_⟩
  · intro d hd heq
    rw [List.map_append, List.nodup_append] at hu
    exact hu.2.2 (List.mem_map_of_mem Task.ID hd)
      (by rw [heq]; exact List.mem_map_of_mem Task.ID (List.mem_cons_self t post))
  · intro d hd heq
    rw [List.map_append, List.nodup_append] at hu
    have h2 := hu.2.1
    rw [List.map_cons, List.nodup_cons] at h2
    exact h2.1 (by rw [← heq]; exact List.mem_map_of_mem Task.ID hd)

/-! ## Repository calls on a stored task -/

theorem getTaskByID_stored (r : Collection) (id : String) (t : Task) (pre post : List Task)
    (hid : ObjectIDFromHex id = .ok t.ID) (hdocs : r.docs = pre ++ t :: post)
    (hpre : ∀ d ∈ pre, d.ID ≠ t.ID) :
    TaskRepository.GetTaskByID r id =
      (.ok (TaskRepository.toResponse t), ⟨r.docs, r.calls ++ [.findOne (.byID t.ID)]⟩) := by
  simp only [TaskRepository.GetTaskByID, hid, Collection.FindOne]
  rw [hdocs, find_split pre post t hpre]

theorem updateTask_stored (r : Collection) (id : String) (t : Task) (pre post : List Task)
    (req : UpdateTaskRequest)
    (hid : ObjectIDFromHex id = .ok t.ID) (hdocs : r.docs = pre ++ t :: post)
    (hpre : ∀ d ∈ pre, d.ID ≠ t.ID) :
    ∃ calls, TaskRepository.UpdateTask r id req =
      (.ok (TaskRepository.toResponse
          ⟨t.ID, req.Text.getD t.Text, req.Completed.getD t.Completed, t.CreatedAt⟩),
        ⟨pre ++ ⟨t.ID, req.Text.getD t.Text, req.Completed.getD t.Completed, t.CreatedAt⟩ :: post,
          calls⟩) := by
  obtain ⟨text, completed⟩ := req
  have key : ∀ u : SetFields, u = ⟨text, completed⟩ →
      u.apply t = ⟨t.ID, text.getD t.Text, completed.getD t.Completed, t.CreatedAt⟩ := by
    intro u hu
    subst hu
    cases text <;> cases completed <;> rfl
  have hupd : ∀ u : SetFields, u = ⟨text, completed⟩ →
      updateFirst (.byID t.ID) u r.docs =
        pre ++ ⟨t.ID, text.getD t.Text, completed.getD t.Completed, t.CreatedAt⟩ :: post := by
    intro u hu
    rw [hdocs, updateFirst_split pre post t u hpre, key u hu]
  refine ⟨r.calls ++ [.updateOne (.byID t.ID) ⟨text, completed⟩] ++ [.findOne (.byID t.ID)], ?_⟩
  have hget := getTaskByID_stored
    ⟨pre ++ ⟨t.ID, text.getD t.Text, completed.getD t.Completed, t.CreatedAt⟩ :: post,
      r.calls ++ [.updateOne (.byID t.ID) ⟨text, completed⟩]⟩ id
    ⟨t.ID, text.getD t.Text, completed.getD t.Completed, t.CreatedAt⟩ pre post hid rfl hpre
  cases text <;> cases completed <;>
    simp only [TaskRepository.UpdateTask, hid, Collection.UpdateOne] <;>
    rw [hupd _ rfl] <;> exact hget

theorem toggleTask_stored (h : Collection) (id : String) (t : Task) (pre post : List Task)
    (hid : ObjectIDFromHex id = .ok t.ID) (hdocs : h.docs = pre ++ t :: post)
    (hpre : ∀ d ∈ pre, d.ID ≠ t.ID) :
    ∃ calls, TaskHandler.ToggleTask h id =
      (⟨StatusOK, .task (TaskRepository.toResponse ⟨t.ID, t.Text, !t.Completed, t.CreatedAt⟩)⟩,
        ⟨pre ++ ⟨t.ID, t.Text, !t.Completed, t.CreatedAt⟩ :: post, calls⟩) := by
  obtain ⟨calls, hupd⟩ := updateTask_stored
    ⟨h.docs, h.calls ++ [.findOne (.byID t.ID)]⟩ id t pre post ⟨none, some (!t.Completed)⟩
    hid hdocs hpre
  refine ⟨calls, ?_⟩
  simp only [TaskHandler.ToggleTask, getTaskByID_stored h id t pre post hid hdocs hpre]
  have hc : (TaskRepository.toResponse t).Completed = t.Completed := rfl
  rw [hc, hupd]
  rfl

/-! ## The effect of each call on the stored tasks -/

theorem getTaskByID_docs (r : Collection) (id : String) :
    (TaskRepository.GetTaskByID r id).2.docs = r.docs := by
  unfold TaskRepository.GetTaskByID Collection.FindOne
  cases ObjectIDFromHex id with
  | error e => rfl
  | ok oid =>
    cases hf : r.docs.find? (Query.byID oid).sat <;> simp only [hf]

theorem getTaskByID_ok_parses (r : Collection) (id : String) (resp : TaskResponse)
    (r1 : Collection) (hget : TaskRepository.GetTaskByID r id = (.ok resp, r1)) :
    ∃ oid, ObjectIDFromHex id = .ok oid := by
  cases hp : ObjectIDFromHex id with
  | error e => simp [TaskRepository.GetTaskByID, hp] at hget
  | ok oid => exact ⟨oid, rfl⟩

theorem updateTask_docs (r : Collection) (id : String) (oid : ObjectID)
    (req : UpdateTaskRequest) (hid : ObjectIDFromHex id = .ok oid) :
    (TaskRepository.UpdateTask r id req).2.docs =
      updateFirst (.byID oid) ⟨req.Text, req.Completed⟩ r.docs := by
  obtain ⟨text, completed⟩ := req
  cases text <;> cases completed <;>
    simp only [TaskRepository.UpdateTask, hid, Collection.UpdateOne, getTaskByID_docs]

theorem updateTask_docs_of_error (r : Collection) (id : String) (e : Err)
    (req : UpdateTaskRequest) (hid : ObjectIDFromHex id = .error e) :
    TaskRepository.UpdateTask r id req = (.error e, r) := by
  simp only [TaskRepository.UpdateTask, hid]

/-- What one request can do to the stored tasks: nothing; a `$set` on the
first task with some id, whose text is that of the update body, or absent for
a toggle; the removal of the first task with some id; the removal of every
task; or the insertion of a task with a non-empty text and a fresh id. -/
theorem serve_docs (h : Collection) (req : Request) :
    (serve h req).2.docs = h.docs ∨
      (∃ oid u, (serve h req).2.docs = updateFirst (.byID oid) u h.docs ∧
        (u.text = none ∨ ∃ id body, req = .updateTask id (some body) ∧ u.text = body.text)) ∨
      (∃ oid, (serve h req).2.docs = deleteFirst (.byID oid) h.docs) ∨
      (serve h req).2.docs = [] ∨
      (∃ now gen text, text ≠ "" ∧ (∀ d ∈ h.docs, d.ID ≠ gen) ∧
        (serve h req).2.docs = h.docs ++ [⟨gen, text, false, bsonDateTime now⟩]) := by
  cases req with
  | createTask now gen body =>
    simp only [serve]
    match body with
    | none => left; rfl
    | some ⟨none⟩ => left; rfl
    | some ⟨some text⟩ =>
      by_cases hne : text = ""
      · left; simp [TaskHandler.CreateTask, bindCreateTaskRequest, hne]
      · by_cases hany : (h.docs.any fun d => d.ID == gen) = true
        · left
          simp [TaskHandler.CreateTask, bindCreateTaskRequest, hne,
            TaskRepository.CreateTask, Collection.InsertOne, hany]
        · right; right; right; right
          refine ⟨now, gen, text, hne, ?_, ?_⟩
          · intro d hd heq
            exact hany (List.any_eq_true.mpr ⟨d, hd, by simp [heq]⟩)
          · simp [TaskHandler.CreateTask, bindCreateTaskRequest, hne,
              TaskRepository.CreateTask, Collection.InsertOne, hany]
  | getTasks query =>
    left
    simp only [serve, TaskHandler.GetTasks, TaskRepository.GetAllTasks, Collection.Find]
  | getStats =>
    left
    simp only [serve, TaskHandler.GetStats, TaskRepository.GetTaskStats,
      Collection.CountDocuments]
  | deleteAllTasks =>
    right; right; right; left
    simp [serve, TaskHandler.DeleteAllTasks, TaskRepository.DeleteAllTasks,
      Collection.DeleteMany, Query.sat]
  | getTask id =>
    left
    have := getTaskByID_docs h id
    simp only [serve, TaskHandler.GetTask]
    split <;> simp_all
  | updateTask id body =>
    simp only [serve]
    match body with
    | none => left; rfl
    | some b =>
      cases hp : ObjectIDFromHex id with
      | error e =>
        left
        simp only [TaskHandler.UpdateTask, bindUpdateTaskRequest,
          updateTask_docs_of_error h id e _ hp]
      | ok oid =>
        right; left
        refine ⟨oid, ⟨b.text, b.completed⟩, ?_, Or.inr ⟨id, b, rfl, rfl⟩⟩
        have := updateTask_docs h id oid ⟨b.text, b.completed⟩ hp
        simp only [TaskHandler.UpdateTask, bindUpdateTaskRequest]
        split <;> simp_all
  | toggleTask id =>
    simp only [serve, TaskHandler.ToggleTask]
    have hdocs := getTaskByID_docs h id
    cases hget : TaskRepository.GetTaskByID h id with
    | mk res h1 =>
      rw [hget] at hdocs
      cases res with
      | error e => left; exact hdocs
      | ok cur =>
        obtain ⟨oid, hp⟩ := getTaskByID_ok_parses h id cur h1 hget
        right; left
        refine ⟨oid, ⟨none, some (!cur.Completed)⟩, ?_, Or.inl rfl⟩
        have := updateTask_docs h1 id oid ⟨none, some (!cur.Completed)⟩ hp
        simp only at hdocs ⊢
        rw [hdocs] at this
        split <;> simp_all
  | deleteTask id =>
    simp only [serve, TaskHandler.DeleteTask, TaskRepository.DeleteTask]
    cases hp : ObjectIDFromHex id with
    | error e => left; rfl
    | ok oid => right; right; left; exact ⟨oid, rfl⟩

/-! ## Invariants of the stored tasks -/

theorem updateFirst_ids (q : Query) (u : SetFields) (docs : List Task) :
    (updateFirst q u docs).map Task.ID = docs.map Task.ID := by
  induction docs with
  | nil => rfl
  | cons d ds ih =>
    by_cases hd : q.sat d = true
    · simp [updateFirst, hd, apply_ID]
    · simp [updateFirst, hd, ih]

theorem deleteFirst_sublist (q : Query) (docs : List Task) :
    (deleteFirst q docs).Sublist docs := by
  induction docs with
  | nil => exact List.Sublist.slnil
  | cons d ds ih =>
    by_cases hd : q.sat d = true
    · simp [deleteFirst, hd]
    · simp [deleteFirst, hd, ih]

theorem updateFirst_mem (q : Query) (u : SetFields) (docs : List Task) (x : Task)
    (hx : x ∈ updateFirst q u docs) : x ∈ docs ∨ ∃ d ∈ docs, x = u.apply d := by
  induction docs with
  | nil => simp [updateFirst] at hx
  | cons d ds ih =>
    by_cases hd : q.sat d = true
    · have hx1 : x = u.apply d ∨ x ∈ ds := by simpa [updateFirst, hd] using hx
      rcases hx1 with hx1 | hx1
      · exact Or.inr ⟨d, List.mem_cons_self d ds, hx1⟩
      · exact Or.inl (List.mem_cons_of_mem d hx1)
    · have hx1 : x = d ∨ x ∈ updateFirst q u ds := by simpa [updateFirst, hd] using hx
      rcases hx1 with hx1 | hx1
      · exact Or.inl (by rw [hx1]; exact List.mem_cons_self d ds)
      · rcases ih hx1 with h1 | ⟨y, hy, hxy⟩
        · exact Or.inl (List.mem_cons_of_mem d h1)
        · exact Or.inr ⟨y, List.mem_cons_of_mem d hy, hxy⟩

theorem apply_text (u : SetFields) (t : Task) : (u.apply t).Text = u.text.getD t.Text := by
  unfold SetFields.apply
  cases u.text <;> cases u.completed <;> rfl

/-- One request keeps the identifiers of the stored tasks distinct. -/
theorem serve_uniqueIDs (h : Collection) (req : Request) (hu : h.UniqueIDs) :
    (serve h req).2.UniqueIDs := by
  unfold Collection.UniqueIDs at hu ⊢
  rcases serve_docs h req with hd | ⟨oid, u, hd, _⟩ | ⟨oid, hd⟩ | hd | ⟨now, gen, text, _, hfresh, hd⟩
  · rw [hd]; exact hu
  · rw [hd, updateFirst_ids]; exact hu
  · rw [hd]; exact hu.sublist ((deleteFirst_sublist _ _).map Task.ID)
  · rw [hd]; exact List.nodup_nil
  · rw [hd, List.map_append, List.nodup_append]
    refine ⟨hu, by simp, ?_⟩
    intro a ha hb
    simp only [List.map_cons, List.map_nil, List.mem_singleton] at hb
    obtain ⟨d, hd1, hd2⟩ := List.mem_map.mp ha
    exact hfresh d hd1 (by rw [hd2, hb])

/-- Every state the service reaches from the empty store has distinct identifiers. -/
theorem serveAll_uniqueIDs (reqs : List Request) (h : Collection) (hu : h.UniqueIDs) :
    (serveAll h reqs).UniqueIDs := by
  induction reqs generalizing h with
  | nil => exact hu
  | cons req reqs ih => exact ih _ (serve_uniqueIDs h req hu)

/-- One request that is not an update to the empty text keeps every stored
text non-empty. -/
theorem serve_textsNonEmpty (h : Collection) (req : Request) (hne : h.TextsNonEmpty)
    (hreq : ¬ req.setsEmptyText) : (serve h req).2.TextsNonEmpty := by
  unfold Collection.TextsNonEmpty at hne ⊢
  rcases serve_docs h req with hd | ⟨oid, u, hd, hu⟩ | ⟨oid, hd⟩ | hd | ⟨now, gen, text, ht, _, hd⟩
  · rw [hd]; exact hne
  · rw [hd]
    intro x hx
    rcases updateFirst_mem _ _ _ _ hx with h1 | ⟨d, hd1, rfl⟩
    · exact hne x h1
    · rw [apply_text]
      rcases hu with hu | ⟨id, body, rfl, hu⟩
      · rw [hu]; exact hne d hd1
      · rw [hu]
        cases hb : body.text with
        | none => exact hne d hd1
        | some x =>
          intro hx0
          apply hreq
          simp only [Option.getD_some] at hx0
          simp [Request.setsEmptyText, hb, hx0]
  · rw [hd]
    intro x hx
    exact hne x ((deleteFirst_sublist _ _).subset hx)
  · rw [hd]; intro x hx; simp at hx
  · rw [hd]
    intro x hx
    rcases List.mem_append.mp hx with h1 | h1
    · exact hne x h1
    · simp only [List.mem_singleton] at h1
      rw [h1]; exact ht

/-- From the empty store, requests none of which updates a text to the empty
string leave every stored text non-empty. -/
theorem serveAll_textsNonEmpty (reqs : List Request) (h : Collection)
    (hne : h.TextsNonEmpty) (hreqs : ∀ req ∈ reqs, ¬ req.setsEmptyText) :
    (serveAll h reqs).TextsNonEmpty := by
  induction reqs generalizing h with
  | nil => exact hne
  | cons req reqs ih =>
    exact ih _ (serve_textsNonEmpty h req hne (hreqs req (List.mem_cons_self req reqs)))
      (fun r hr => hreqs r (List.mem_cons_of_mem req hr))

/-! ## Listing and counting -/

/-- C1. `GET /tasks`: the handler answers 200 with the stored tasks whose
`completed` is true when the `filter` parameter is `completed`, those whose
`completed` is false when it is `pending`, and every stored task when the
parameter is omitted or is any other string; each item is the id in hex, the
text, the completed flag and the creation time of its stored task, and the
stored tasks are left as they were. -/
theorem C1_getTasks_filter (h : Collection) (query : Option String) :
    (TaskHandler.GetTasks h query).1 =
        ⟨StatusOK, .tasks ((h.docs.filter fun t =>
          if query = some "completed" then t.Completed
          else if query = some "pending" then !t.Completed
          else true).map TaskRepository.toResponse)⟩ ∧
      (TaskHandler.GetTasks h query).2.docs = h.docs ∧
      ∀ t : Task, TaskRepository.toResponse t = ⟨t.ID.Hex, t.Text, t.Completed, t.CreatedAt⟩ := by
  refine ⟨?_, ?_, fun _ => rfl⟩
  · by_cases hc : query = some "completed"
    · subst hc
      simp [TaskHandler.GetTasks, TaskRepository.GetAllTasks, Collection.Find,
        FilterCompleted, sat_completed_true]
    · by_cases hp : query = some "pending"
      · subst hp
        simp [TaskHandler.GetTasks, TaskRepository.GetAllTasks, Collection.Find,
          FilterCompleted, FilterPending, sat_completed_false]
      · have h1 : query.getD "all" ≠ "completed" := by
          cases query with
          | none => decide
          | some s => simpa using hc
        have h2 : query.getD "all" ≠ "pending" := by
          cases query with
          | none => decide
          | some s => simpa using hp
        simp [TaskHandler.GetTasks, TaskRepository.GetAllTasks, Collection.Find,
          FilterCompleted, FilterPending, FilterAll, sat_all, hc, hp, h1, h2]
  · simp only [TaskHandler.GetTasks, TaskRepository.GetAllTasks, Collection.Find]

/-- C2. `GET /tasks/stats`: for a store holding N tasks of which K are
completed, `GetTaskStats` returns total N, completed K and pending N - K;
total is completed plus pending, pending is the number of stored tasks that
are not completed, and the handler answers 200 with these statistics. -/
theorem C2_stats_counts (r : Collection) :
    ∃ stats : TaskStats,
      (TaskRepository.GetTaskStats r).1 = .ok stats ∧
      (TaskHandler.GetStats r).1 = ⟨StatusOK, .stats stats⟩ ∧
      stats.Total = (r.docs.length : Int) ∧
      stats.Completed = (r.docs.countP (fun t => t.Completed) : Int) ∧
      stats.Pending = (r.docs.length : Int) - (r.docs.countP (fun t => t.Completed) : Int) ∧
      stats.Total = stats.Completed + stats.Pending ∧
      stats.Pending = (r.docs.countP (fun t => !t.Completed) : Int) := by
  have hall : r.docs.countP (Query.sat .all) = r.docs.length := by
    rw [List.countP_eq_length]; intro _ _; rfl
  have hcomp : r.docs.countP (Query.sat (.completed true)) =
      r.docs.countP (fun t => t.Completed) := by
    rw [sat_completed_true]
  have hsum : r.docs.length =
      r.docs.countP (fun t => t.Completed) + r.docs.countP (fun t => !t.Completed) := by
    have := List.length_eq_countP_add_countP (fun t : Task => t.Completed) r.docs
    simpa using this
  refine ⟨⟨(r.docs.length : Int), (r.docs.countP (fun t => t.Completed) : Int),
    (r.docs.length : Int) - (r.docs.countP (fun t => t.Completed) : Int)⟩, ?_, ?_, rfl, rfl, rfl, ?_, ?_⟩
  · simp [TaskRepository.GetTaskStats, Collection.CountDocuments, hall, hcomp]
  · simp [TaskHandler.GetStats, TaskRepository.GetTaskStats, Collection.CountDocuments, hall, hcomp]
  · simp
  · simp only; omega

/-! ## Updating and toggling -/

/-- C3. `UpdateTask` on the id of a stored task: the text is kept when the
request has none and set to the given value otherwise, the completed flag
likewise, the id and the creation time are kept, every other stored task
stays where and as it was, and the call returns the task as stored after the
update. -/
theorem C3_updateTask_frame (r : Collection) (id : String) (t : Task) (req : UpdateTaskRequest)
    (hu : r.UniqueIDs) (ht : t ∈ r.docs) (hid : ObjectIDFromHex id = .ok t.ID) :
    ∃ (t' : Task) (pre post : List Task),
      r.docs = pre ++ t :: post ∧
      (TaskRepository.UpdateTask r id req).2.docs = pre ++ t' :: post ∧
      (TaskRepository.UpdateTask r id req).1 = .ok (TaskRepository.toResponse t') ∧
      (req.Text = none → t'.Text = t.Text) ∧
      (∀ x, req.Text = some x → t'.Text = x) ∧
      (req.Completed = none → t'.Completed = t.Completed) ∧
      (∀ b, req.Completed = some b → t'.Completed = b) ∧
      t'.ID = t.ID ∧ t'.CreatedAt = t.CreatedAt := by
  obtain ⟨pre, post, hdocs, hpre, _⟩ := split_of_mem r.docs t hu ht
  obtain ⟨calls, hupd⟩ := updateTask_stored r id t pre post req hid hdocs hpre
  refine ⟨⟨t.ID, req.Text.getD t.Text, req.Completed.getD t.Completed, t.CreatedAt⟩,
    pre, post, hdocs, ?_, ?_, ?_, ?_, ?_, ?_, rfl, rfl⟩
  · rw [hupd]
  · rw [hupd]
  · intro hn; simp [hn]
  · intro x hx; simp [hx]
  · intro hn; simp [hn]
  · intro b hb; simp [hb]

/-- The statement of C3 at a store of two tasks, completing the first. -/
theorem C3_updateTask_frame_witness :
    (TaskRepository.UpdateTask twoTasks "000000000000000000000001" ⟨none, some true⟩).2.docs =
        [⟨oidA, "write", true, 5000000⟩, taskB] ∧
      ∃ (t' : Task) (pre post : List Task),
        twoTasks.docs = pre ++ taskA :: post ∧
        (TaskRepository.UpdateTask twoTasks "000000000000000000000001"
          ⟨none, some true⟩).2.docs = pre ++ t' :: post ∧
        (TaskRepository.UpdateTask twoTasks "000000000000000000000001"
          ⟨none, some true⟩).1 = .ok (TaskRepository.toResponse t') ∧
        ((⟨none, some true⟩ : UpdateTaskRequest).Text = none → t'.Text = taskA.Text) ∧
        (∀ x, (⟨none, some true⟩ : UpdateTaskRequest).Text = some x → t'.Text = x) ∧
        ((⟨none, some true⟩ : UpdateTaskRequest).Completed = none →
          t'.Completed = taskA.Completed) ∧
        (∀ b, (⟨none, some true⟩ : UpdateTaskRequest).Completed = some b → t'.Completed = b) ∧
        t'.ID = taskA.ID ∧ t'.CreatedAt = taskA.CreatedAt :=
  ⟨by decide, C3_updateTask_frame twoTasks "000000000000000000000001" taskA ⟨none, some true⟩
    (by decide) (by decide) (by decide)⟩

/-- C4. `PATCH /tasks/:id/toggle` on the id of a stored task answers 200 with
the completed flag negated and the text, id and creation time kept, changes
no other stored task, and a second toggle of the same id answers 200 with the
original task and puts the stored tasks back as they were. -/
theorem C4_toggle_twice (h : Collection) (id : String) (t : Task)
    (hu : h.UniqueIDs) (ht : t ∈ h.docs) (hid : ObjectIDFromHex id = .ok t.ID) :
    ∃ pre post : List Task,
      h.docs = pre ++ t :: post ∧
      (TaskHandler.ToggleTask h id).1 =
        ⟨StatusOK, .task ⟨t.ID.Hex, t.Text, !t.Completed, t.CreatedAt⟩⟩ ∧
      (TaskHandler.ToggleTask h id).2.docs =
        pre ++ ⟨t.ID, t.Text, !t.Completed, t.CreatedAt⟩ :: post ∧
      (TaskHandler.ToggleTask (TaskHandler.ToggleTask h id).2 id).1 =
        ⟨StatusOK, .task ⟨t.ID.Hex, t.Text, t.Completed, t.CreatedAt⟩⟩ ∧
      (TaskHandler.ToggleTask (TaskHandler.ToggleTask h id).2 id).2.docs = h.docs := by
  obtain ⟨pre, post, hdocs, hpre, _⟩ := split_of_mem h.docs t hu ht
  obtain ⟨calls, h1⟩ := toggleTask_stored h id t pre post hid hdocs hpre
  obtain ⟨calls2, h2⟩ := toggleTask_stored
    ⟨pre ++ ⟨t.ID, t.Text, !t.Completed, t.CreatedAt⟩ :: post, calls⟩ id
    ⟨t.ID, t.Text, !t.Completed, t.CreatedAt⟩ pre post hid rfl hpre
  refine ⟨pre, post, hdocs, ?_, ?_, ?_, ?_⟩
  · rw [h1]; rfl
  · rw [h1]
  · rw [h1, h2]; simp [TaskRepository.toResponse]
  · rw [h1, h2, hdocs]; simp

/-- The statement of C4 at a store of two tasks: the pending task is
completed by one toggle and pending again after two. -/
theorem C4_toggle_twice_witness :
    (TaskHandler.ToggleTask twoTasks "000000000000000000000001").2.docs =
        [⟨oidA, "write", true, 5000000⟩, taskB] ∧
      ∃ pre post : List Task,
        twoTasks.docs = pre ++ taskA :: post ∧
        (TaskHandler.ToggleTask twoTasks "000000000000000000000001").1 =
          ⟨StatusOK, .task ⟨taskA.ID.Hex, taskA.Text, !taskA.Completed, taskA.CreatedAt⟩⟩ ∧
        (TaskHandler.ToggleTask twoTasks "000000000000000000000001").2.docs =
          pre ++ ⟨taskA.ID, taskA.Text, !taskA.Completed, taskA.CreatedAt⟩ :: post ∧
        (TaskHandler.ToggleTask
          (TaskHandler.ToggleTask twoTasks "000000000000000000000001").2
          "000000000000000000000001").1 =
          ⟨StatusOK, .task ⟨taskA.ID.Hex, taskA.Text, taskA.Completed, taskA.CreatedAt⟩⟩ ∧
        (TaskHandler.ToggleTask
          (TaskHandler.ToggleTask twoTasks "000000000000000000000001").2
          "000000000000000000000001").2.docs = twoTasks.docs :=
  ⟨by decide, C4_toggle_twice twoTasks "000000000000000000000001" taskA
    (by decide) (by decide) (by decide)⟩

/-! ## Creating -/

/-- C5. `POST /tasks` with a body whose text is missing or empty: the handler
answers 400 with an error body, and the collection is returned as it was,
with the same stored tasks and no store operation issued. -/
theorem C5_create_rejects_empty_text (h : Collection) (now : Time) (gen : ObjectID)
    (body : CreateBody) (hb : body.text = none ∨ body.text = some "") :
    TaskHandler.CreateTask h now gen (some body) =
      (⟨StatusBadRequest, .error "Invalid request body"⟩, h) := by
  rcases hb with hb | hb <;>
    simp [TaskHandler.CreateTask, bindCreateTaskRequest, hb]

/-- The statement of C5 at a store of two tasks, for a body without text and
for a body with the empty text. -/
theorem C5_create_rejects_empty_text_witness :
    TaskHandler.CreateTask twoTasks 9 oidA (some ⟨none⟩) =
        (⟨StatusBadRequest, .error "Invalid request body"⟩, twoTasks) ∧
      TaskHandler.CreateTask twoTasks 9 oidA (some ⟨some ""⟩) =
        (⟨StatusBadRequest, .error "Invalid request body"⟩, twoTasks) :=
  ⟨C5_create_rejects_empty_text twoTasks 9 oidA ⟨none⟩ (Or.inl rfl),
    C5_create_rejects_empty_text twoTasks 9 oidA ⟨some ""⟩ (Or.inr rfl)⟩

/-- C6. `POST /tasks` with a non-empty text, when the insert succeeds (the
generated identifier is not in the store): the handler answers 201 with an
entity that has the given text, completed false, the hex form of the
generated identifier as its non-empty id, and the time read during the call;
afterwards the store holds the previous tasks followed by the one new task. -/
theorem C6_create_stores_task (h : Collection) (now : Time) (gen : ObjectID)
    (body : CreateBody) (text : String)
    (hb : body.text = some text) (hne : text ≠ "") (hfresh : ∀ d ∈ h.docs, d.ID ≠ gen) :
    (TaskHandler.CreateTask h now gen (some body)).1 =
        ⟨StatusCreated, .task ⟨gen.Hex, text, false, now⟩⟩ ∧
      gen.Hex ≠ "" ∧
      (TaskHandler.CreateTask h now gen (some body)).2.docs =
        h.docs ++ [⟨gen, text, false, bsonDateTime now⟩] := by
  have hany : (h.docs.any fun d => d.ID == gen) = false := by
    rw [List.any_eq_false]
    intro d hd
    simpa using hfresh d hd
  have hhex : gen.Hex ≠ "" := by
    obtain ⟨l, hl⟩ := gen
    match l, hl with
    | b :: rest, _ =>
      intro hcontra
      have := congrArg String.data hcontra
      simp [ObjectID.Hex] at this
  refine ⟨?_, hhex, ?_⟩ <;>
    simp [TaskHandler.CreateTask, bindCreateTaskRequest, hb, hne,
      TaskRepository.CreateTask, Collection.InsertOne, hany]

/-- The statement of C6 at a store of one task. -/
theorem C6_create_stores_task_witness :
    (TaskHandler.CreateTask ⟨[taskA], []⟩ 7000000 oidB (some ⟨some "read"⟩)).1 =
        ⟨StatusCreated, .task ⟨oidB.Hex, "read", false, 7000000⟩⟩ ∧
      oidB.Hex ≠ "" ∧
      (TaskHandler.CreateTask ⟨[taskA], []⟩ 7000000 oidB (some ⟨some "read"⟩)).2.docs =
        (⟨[taskA], []⟩ : Collection).docs ++ [⟨oidB, "read", false, bsonDateTime 7000000⟩] :=
  C6_create_stores_task ⟨[taskA], []⟩ 7000000 oidB ⟨some "read"⟩ "read" rfl (by decide)
    (by decide)

/-! ## Unknown and malformed ids -/

theorem getTaskByID_absent (r : Collection) (id : String) (oid : ObjectID)
    (hid : ObjectIDFromHex id = .ok oid) (hab : ∀ d ∈ r.docs, d.ID ≠ oid) :
    TaskRepository.GetTaskByID r id =
      (.error .noDocuments, ⟨r.docs, r.calls ++ [.findOne (.byID oid)]⟩) := by
  simp only [TaskRepository.GetTaskByID, hid, Collection.FindOne]
  rw [find_none_of_absent oid r.docs hab]

theorem updateTask_absent (r : Collection) (id : String) (oid : ObjectID)
    (req : UpdateTaskRequest)
    (hid : ObjectIDFromHex id = .ok oid) (hab : ∀ d ∈ r.docs, d.ID ≠ oid) :
    ∃ calls, TaskRepository.UpdateTask r id req = (.error .noDocuments, ⟨r.docs, calls⟩) := by
  obtain ⟨text, completed⟩ := req
  refine ⟨r.calls ++ [.updateOne (.byID oid) ⟨text, completed⟩] ++ [.findOne (.byID oid)], ?_⟩
  have hget := getTaskByID_absent
    ⟨r.docs, r.calls ++ [.updateOne (.byID oid) ⟨text, completed⟩]⟩ id oid hid hab
  cases text <;> cases completed <;>
    simp only [TaskRepository.UpdateTask, hid, Collection.UpdateOne] <;>
    rw [updateFirst_of_absent oid _ r.docs hab] <;> exact hget

/-- What `PUT /tasks/:id` does with a body that decodes and an id that is not
24 hex digits or names no stored task: the repository call fails, with the
error of `ObjectIDFromHex` and no store operation for a malformed id and with
the no-documents error otherwise; the handler answers 500 with an error body;
the stored tasks are unchanged. -/
theorem updateTask_unknown_id (h : Collection) (id : String) (body : UpdateBody)
    (hid : ¬ IsHex24 id ∨
      ∃ oid, ObjectIDFromHex id = .ok oid ∧ ∀ d ∈ h.docs, d.ID ≠ oid) :
    (¬ IsHex24 id →
        ∃ e, ObjectIDFromHex id = .error e ∧
          TaskRepository.UpdateTask h id ⟨body.text, body.completed⟩ = (.error e, h)) ∧
      (IsHex24 id →
        (TaskRepository.UpdateTask h id ⟨body.text, body.completed⟩).1 = .error .noDocuments) ∧
      (TaskRepository.UpdateTask h id ⟨body.text, body.completed⟩).2.docs = h.docs ∧
      (TaskHandler.UpdateTask h id (some body)).1 =
        ⟨StatusInternalServerError, .error "Failed to update task"⟩ ∧
      (TaskHandler.UpdateTask h id (some body)).2.docs = h.docs := by
  rcases hid with hbad | ⟨oid, hok, hab⟩
  · obtain ⟨e, he⟩ := ObjectIDFromHex_error_of_not_hex id hbad
    have hrepo : TaskRepository.UpdateTask h id ⟨body.text, body.completed⟩ = (.error e, h) := by
      simp only [TaskRepository.UpdateTask, he]
    refine ⟨fun _ => ⟨e, he, hrepo⟩, fun hgood => absurd hgood hbad,
      by rw [hrepo], ?_, ?_⟩ <;>
      simp only [TaskHandler.UpdateTask, bindUpdateTaskRequest, hrepo]
  · obtain ⟨calls, hrepo⟩ := updateTask_absent h id oid ⟨body.text, body.completed⟩ hok hab
    have hgood : IsHex24 id := (ObjectIDFromHex_ok_iff id).mp ⟨oid, hok⟩
    refine ⟨fun hbad => absurd hgood hbad,
      fun _ => by rw [hrepo], by rw [hrepo], ?_, ?_⟩ <;>
      simp only [TaskHandler.UpdateTask, bindUpdateTaskRequest, hrepo]

/-- C7 fails on the code. At a store of two tasks, `PUT /tasks/:id` with a body
that decodes is answered 500 "Failed to update task", and not 404, both for a
well-formed id that names no stored task, where the repository's `UpdateTask`
fails with the no-documents error, and for a malformed id, where it fails with
the parse error; the stored tasks are unchanged. For the same two ids
`GET /tasks/:id` and `PATCH /tasks/:id/toggle` answer 404 "Task not found". -/
theorem C7_update_unknown_id_is_500 :
    (TaskRepository.UpdateTask twoTasks "000000000000000000000003" ⟨none, some true⟩).1 =
        .error .noDocuments ∧
      TaskRepository.UpdateTask twoTasks "no-such-id" ⟨none, some true⟩ =
        (.error .invalidHex, twoTasks) ∧
      (TaskHandler.UpdateTask twoTasks "000000000000000000000003"
        (some ⟨none, some true⟩)).1 = ⟨500, .error "Failed to update task"⟩ ∧
      (TaskHandler.UpdateTask twoTasks "no-such-id" (some ⟨none, some true⟩)).1 =
        ⟨500, .error "Failed to update task"⟩ ∧
      ¬ ((TaskHandler.UpdateTask twoTasks "000000000000000000000003"
        (some ⟨none, some true⟩)).1.status = StatusNotFound) ∧
      ¬ ((TaskHandler.UpdateTask twoTasks "no-such-id"
        (some ⟨none, some true⟩)).1.status = StatusNotFound) ∧
      (TaskHandler.UpdateTask twoTasks "000000000000000000000003"
        (some ⟨none, some true⟩)).2.docs = twoTasks.docs ∧
      (TaskHandler.UpdateTask twoTasks "no-such-id" (some ⟨none, some true⟩)).2.docs =
        twoTasks.docs ∧
      (TaskHandler.GetTask twoTasks "000000000000000000000003").1 =
        ⟨404, .error "Task not found"⟩ ∧
      (TaskHandler.GetTask twoTasks "no-such-id").1 = ⟨404, .error "Task not found"⟩ ∧
      (TaskHandler.ToggleTask twoTasks "000000000000000000000003").1 =
        ⟨404, .error "Task not found"⟩ ∧
      (TaskHandler.ToggleTask twoTasks "no-such-id").1 = ⟨404, .error "Task not found"⟩ := by
  decide

/-- C8, as the code has it. `DELETE /tasks/:id`: for an id that parses and
names no stored task, `DeleteTask` returns no error, the handler answers 200
with its success message and the stored tasks are unchanged; for an id that
names a stored task, that task is removed and every other task stays as it
was; for an id that is not 24 hex digits, `DeleteTask` returns the error of
`ObjectIDFromHex` without a store operation and the handler answers 500. -/
theorem C8_delete_by_id (h : Collection) (id : String) :
    (∀ oid, ObjectIDFromHex id = .ok oid → (∀ d ∈ h.docs, d.ID ≠ oid) →
        (TaskRepository.DeleteTask h id).1 = none ∧
        (TaskHandler.DeleteTask h id).1 = ⟨StatusOK, .message "Task deleted successfully"⟩ ∧
        (TaskHandler.DeleteTask h id).2.docs = h.docs) ∧
      (∀ t, ObjectIDFromHex id = .ok t.ID → t ∈ h.docs → h.UniqueIDs →
        ∃ pre post, h.docs = pre ++ t :: post ∧
          (TaskRepository.DeleteTask h id).1 = none ∧
          (TaskHandler.DeleteTask h id).1 = ⟨StatusOK, .message "Task deleted successfully"⟩ ∧
          (TaskHandler.DeleteTask h id).2.docs = pre ++ post) ∧
      (¬ IsHex24 id →
        (∃ e, ObjectIDFromHex id = .error e ∧
          TaskRepository.DeleteTask h id = (some e, h)) ∧
        TaskHandler.DeleteTask h id =
          (⟨StatusInternalServerError, .error "Failed to delete task"⟩, h)) := by
  refine ⟨?_, ?_, ?_⟩
  · intro oid hok hab
    simp [TaskHandler.DeleteTask, TaskRepository.DeleteTask, hok, Collection.DeleteOne,
      deleteFirst_of_absent oid h.docs hab]
  · intro t hok ht hu
    obtain ⟨pre, post, hdocs, hpre, _⟩ := split_of_mem h.docs t hu ht
    refine ⟨pre, post, hdocs, ?_, ?_, ?_⟩ <;>
      simp [TaskHandler.DeleteTask, TaskRepository.DeleteTask, hok, Collection.DeleteOne,
        hdocs, deleteFirst_split pre post t hpre]
  · intro hbad
    obtain ⟨e, he⟩ := ObjectIDFromHex_error_of_not_hex id hbad
    exact ⟨⟨e, he, by simp only [TaskRepository.DeleteTask, he]⟩,
      by simp only [TaskHandler.DeleteTask, TaskRepository.DeleteTask, he]⟩

/-- The statement of C8 at a store of two tasks: an id that names no task, the
id of the first task, and a malformed id. -/
theorem C8_delete_by_id_witness :
    ((TaskRepository.DeleteTask twoTasks "000000000000000000000003").1 = none ∧
        (TaskHandler.DeleteTask twoTasks "000000000000000000000003").1 =
          ⟨StatusOK, .message "Task deleted successfully"⟩ ∧
        (TaskHandler.DeleteTask twoTasks "000000000000000000000003").2.docs = twoTasks.docs) ∧
      (∃ pre post, twoTasks.docs = pre ++ taskA :: post ∧
        (TaskRepository.DeleteTask twoTasks "000000000000000000000001").1 = none ∧
        (TaskHandler.DeleteTask twoTasks "000000000000000000000001").1 =
          ⟨StatusOK, .message "Task deleted successfully"⟩ ∧
        (TaskHandler.DeleteTask twoTasks "000000000000000000000001").2.docs = pre ++ post) ∧
      (TaskHandler.DeleteTask twoTasks "000000000000000000000001").2.docs = [taskB] ∧
      ((∃ e, ObjectIDFromHex "no-such-id" = .error e ∧
          TaskRepository.DeleteTask twoTasks "no-such-id" = (some e, twoTasks)) ∧
        TaskHandler.DeleteTask twoTasks "no-such-id" =
          (⟨StatusInternalServerError, .error "Failed to delete task"⟩, twoTasks)) :=
  ⟨(C8_delete_by_id twoTasks "000000000000000000000003").1
      ⟨[0, 0, 0, 0, 0, 0, 0, 0, 0, 0, 0, 3], rfl⟩ (by decide) (by decide),
    (C8_delete_by_id twoTasks "000000000000000000000001").2.1 taskA
      (by decide) (by decide) (by decide),
    by decide,
    (C8_delete_by_id twoTasks "no-such-id").2.2 (by decide)⟩

/-- C8 as stated fails: for an id that does not parse, `DeleteTask` returns an
error and the handler answers 500, not 200. -/
theorem C8_delete_malformed_id_is_500 :
    (TaskRepository.DeleteTask twoTasks "no-such-id").1 = some .invalidHex ∧
      (TaskHandler.DeleteTask twoTasks "no-such-id").1 =
        ⟨500, .error "Failed to delete task"⟩ ∧
      ¬ ((TaskRepository.DeleteTask twoTasks "no-such-id").1 = none) ∧
      ¬ ((TaskHandler.DeleteTask twoTasks "no-such-id").1.status = StatusOK) := by
  decide

/-- C9. `GET /tasks/:id`: for an id that is not 24 hex digits, `GetTaskByID`
fails without a store operation and the handler answers 404; for an id that
parses and names no stored task the handler answers 404; for the id of a
stored task it answers 200 with that task; it never answers 500 and never
changes the stored tasks. -/
theorem C9_getTask_by_id (h : Collection) (id : String) :
    (¬ IsHex24 id →
        (∃ e, TaskRepository.GetTaskByID h id = (.error e, h)) ∧
        TaskHandler.GetTask h id = (⟨StatusNotFound, .error "Task not found"⟩, h)) ∧
      (∀ oid, ObjectIDFromHex id = .ok oid → (∀ d ∈ h.docs, d.ID ≠ oid) →
        (TaskHandler.GetTask h id).1 = ⟨StatusNotFound, .error "Task not found"⟩) ∧
      (∀ t, ObjectIDFromHex id = .ok t.ID → t ∈ h.docs → h.UniqueIDs →
        (TaskHandler.GetTask h id).1 =
          ⟨StatusOK, .task ⟨t.ID.Hex, t.Text, t.Completed, t.CreatedAt⟩⟩) ∧
      (TaskHandler.GetTask h id).1.status ≠ StatusInternalServerError ∧
      (TaskHandler.GetTask h id).2.docs = h.docs := by
  refine ⟨?_, ?_, ?_, ?_, ?_⟩
  · intro hbad
    obtain ⟨e, he⟩ := ObjectIDFromHex_error_of_not_hex id hbad
    exact ⟨⟨e, by simp only [TaskRepository.GetTaskByID, he]⟩,
      by simp only [TaskHandler.GetTask, TaskRepository.GetTaskByID, he]⟩
  · intro oid hok hab
    simp only [TaskHandler.GetTask, getTaskByID_absent h id oid hok hab]
  · intro t hok ht hu
    obtain ⟨pre, post, hdocs, hpre, _⟩ := split_of_mem h.docs t hu ht
    simp only [TaskHandler.GetTask, getTaskByID_stored h id t pre post hok hdocs hpre]
    rfl
  · unfold TaskHandler.GetTask
    split <;> simp [StatusNotFound, StatusOK, StatusInternalServerError]
  · unfold TaskHandler.GetTask
    have := getTaskByID_docs h id
    split <;> simp_all

/-- The statement of C9 at a store of two tasks: a malformed id, an id that
names no task, and the id of the first task. -/
theorem C9_getTask_by_id_witness :
    ((∃ e, TaskRepository.GetTaskByID twoTasks "no-such-id" = (.error e, twoTasks)) ∧
        TaskHandler.GetTask twoTasks "no-such-id" =
          (⟨StatusNotFound, .error "Task not found"⟩, twoTasks)) ∧
      (TaskHandler.GetTask twoTasks "000000000000000000000003").1 =
        ⟨StatusNotFound, .error "Task not found"⟩ ∧
      (TaskHandler.GetTask twoTasks "000000000000000000000001").1 =
        ⟨StatusOK, .task ⟨taskA.ID.Hex, taskA.Text, taskA.Completed, taskA.CreatedAt⟩⟩ :=
  ⟨(C9_getTask_by_id twoTasks "no-such-id").1 (by decide),
    (C9_getTask_by_id twoTasks "000000000000000000000003").2.1
      ⟨[0, 0, 0, 0, 0, 0, 0, 0, 0, 0, 0, 3], rfl⟩ (by decide) (by decide),
    (C9_getTask_by_id twoTasks "000000000000000000000001").2.2.1 taskA
      (by decide) (by decide) (by decide)⟩

/-! ## The text of a stored task -/

/-- C10 fails on the code. From the empty store, creating a task and then
sending `PUT /tasks/:id` with the empty text is answered 200 and leaves a
stored task whose text is the empty string. -/
theorem C10_update_stores_empty_text :
    (serve (serveAll Collection.empty [.createTask 5000000 oidA (some ⟨some "write"⟩)])
        (.updateTask "000000000000000000000001" (some ⟨some "", none⟩))).1 =
        ⟨StatusOK, .task ⟨"000000000000000000000001", "", false, 5000000⟩⟩ ∧
      (serveAll Collection.empty
        [.createTask 5000000 oidA (some ⟨some "write"⟩),
          .updateTask "000000000000000000000001" (some ⟨some "", none⟩)]).docs =
        [⟨oidA, "", false, 5000000⟩] ∧
      ¬ (serveAll Collection.empty
        [.createTask 5000000 oidA (some ⟨some "write"⟩),
          .updateTask "000000000000000000000001" (some ⟨some "", none⟩)]).TextsNonEmpty := by
  refine ⟨by decide, by decide, ?_⟩
  intro hne
  exact hne ⟨oidA, "", false, 5000000⟩ (by decide) rfl

end TaskGo
